import Mathlib

/-!
Verification of the Session Vector Retrieval Engine of the chatwithpdf
repository, shallowly embedded in Lean 4.

The embedding follows the Python source:
* `src/backend/embedding/retriever.py`   (`SemanticRetriever.retrieve_chunks`)
* `src/backend/embedding/faiss_manager.py` (`FAISSManager`)
* `src/backend/main.py`                  (`QueryCache`, `load_faiss_index`,
  `add_to_faiss_index`, `retrieve_relevant_chunks`)

Numeric values (floats in the source) are modelled as rationals where only
ordered-field behaviour matters, and as real vectors where L2 normalisation
is at stake.  Fallible Python code is modelled with `Except`/`Option`.
-/

namespace ChatPdf

/-- Python exception taxonomy as raised by the embedded code.
`runtimeError e` models `raise RuntimeError(f"...: {str(e)}")`, which wraps
the underlying cause `e`. -/
inductive PyErr where
  | indexError
  | typeError
  | valueError
  | fileNotFound
  | osError
  | runtimeError (cause : PyErr)
deriving DecidableEq, Repr

/-- Dynamically shaped array values that cross the boundary between
`FAISSManager.search` (which returns two already-flattened Python lists,
`distances[0].tolist(), indices[0].tolist()`) and
`SemanticRetriever.retrieve_chunks` (which subscripts the returned values
with `[0]` once more and then `zip`s them).  Only the shapes that can occur
at this seam are represented. -/
inductive PyArr where
  | num (x : ℚ)
  | int (n : ℤ)
  | listNum (l : List ℚ)
  | listInt (l : List ℤ)
  | rowsNum (l : List (List ℚ))
  | rowsInt (l : List (List ℤ))
deriving DecidableEq

/-- Python subscript `v[0]`: first element of a list (raising `IndexError`
when the list is empty), and a `TypeError` when the value is a scalar
(floats and ints are not subscriptable). -/
def pySub0 : PyArr → Except PyErr PyArr
  | .num _ => .error .typeError
  | .int _ => .error .typeError
  | .listNum [] => .error .indexError
  | .listNum (x :: _) => .ok (.num x)
  | .listInt [] => .error .indexError
  | .listInt (x :: _) => .ok (.int x)
  | .rowsNum [] => .error .indexError
  | .rowsNum (r :: _) => .ok (.listNum r)
  | .rowsInt [] => .error .indexError
  | .rowsInt (r :: _) => .ok (.listInt r)

/-- Python `zip(distances_row, indices_row)` as consumed by the retriever
loop, which destructures each pair as `(similarity-distance, index)`.
Scalars are not iterable, so zipping anything that is not a pair of lists
raises `TypeError`.  (Of the list shapes, only a float row zipped with an
int row can reach this point in the embedded program.) -/
def pyZipNumInt : PyArr → PyArr → Except PyErr (List (ℚ × ℤ))
  | .listNum ds, .listInt is => .ok (ds.zip is)
  | _, _ => .error .typeError

/-- Metadata dictionary of one indexed chunk as stored in
`FAISSManager.metadata` and read by `SemanticRetriever.retrieve_chunks`
(`file_id`, `chunk_id` may be absent, `content` defaults to `""`,
`filename` defaults to `"Unknown"`; the defaults are applied at the use
sites via `metadata.get`). -/
structure ChunkMeta where
  fileId : Option String
  chunkId : Option String
  content : String
  filename : String
deriving DecidableEq

/-- Result dictionary built by `SemanticRetriever.retrieve_chunks` for one
retrieved chunk (the full `metadata` dict is also stored in the source; it
is recoverable from the remaining fields and elided). -/
structure RChunk where
  content : String
  similarity : ℚ
  fileId : Option String
  filename : String
  chunkId : String
  distance : ℚ
deriving DecidableEq

/-- Python truthiness test `if file_ids and meta.get("file_id") not in
file_ids` from retriever.py line 61: no filtering when `file_ids` is `None`
or the empty list; otherwise a chunk is skipped when its (possibly missing)
`file_id` is not among the given ids. -/
def fileFilterSkip (fileIds : Option (List String)) (fid : Option String) : Bool :=
  match fileIds with
  | none => false
  | some l =>
    if l = [] then false
    else
      match fid with
      | some f => !(l.contains f)
      | none => true

/-- Python `metadata.get("chunk_id") or str(idx)` (retriever.py line 72):
a missing or empty `chunk_id` falls back to the candidate index rendered as
a string. -/
def chunkIdOf (m : ChunkMeta) (idx : ℤ) : String :=
  match m.chunkId with
  | some c => if c = "" then toString idx else c
  | none => toString idx

/-- Default used only to destructure a guarded list lookup; never observable
because the lookup index is bounds-checked first. -/
def metaDefault : ChunkMeta := ⟨none, none, "", ""⟩

/-- Candidate-processing loop of `SemanticRetriever.retrieve_chunks`
(retriever.py lines 54-88): for each `(distance, idx)` pair, skip
out-of-range indices, apply the file filter, convert the distance to a
similarity `1/(1+distance)`, drop candidates below `min_score`, suppress
duplicate `chunk_id`s, and accumulate result dictionaries in candidate
order.  (The source divides floats, raising on `distance = -1`; rational
division by zero yields `0` here instead — no claim depends on that point.) -/
def processCands (metadata : List ChunkMeta) (fileIds : Option (List String))
    (minScore : ℚ) : List (ℚ × ℤ) → List String → List RChunk → List RChunk
  | [], _, acc => acc.reverse
  | (distance, idx) :: rest, seen, acc =>
    if idx < 0 ∨ (metadata.length : ℤ) ≤ idx then
      processCands metadata fileIds minScore rest seen acc
    else
      let m := metadata.getD idx.toNat metaDefault
      if fileFilterSkip fileIds m.fileId then
        processCands metadata fileIds minScore rest seen acc
      else
        let similarity : ℚ := 1 / (1 + distance)
        if similarity < minScore then
          processCands metadata fileIds minScore rest seen acc
        else
          let cid := chunkIdOf m idx
          if seen.contains cid then
            processCands metadata fileIds minScore rest seen acc
          else
            processCands metadata fileIds minScore rest (cid :: seen)
              ({ content := m.content, similarity := similarity,
                 fileId := m.fileId, filename := m.filename,
                 chunkId := cid, distance := distance } :: acc)

/-- Python `min_score = min_score or self.threshold` (retriever.py line 40):
`None` and the falsy value `0.0` are both replaced by the configured
threshold. -/
def resolveMinScore (minScore : Option ℚ) (threshold : ℚ) : ℚ :=
  match minScore with
  | none => threshold
  | some s => if s = 0 then threshold else s

/-- Comparator used by the final `retrieved_chunks.sort(key=..., reverse=True)`:
Python stable sort in descending similarity order corresponds to a stable
merge sort with `a` allowed before `b` iff `b.similarity ≤ a.similarity`. -/
def rchunkDesc (a b : RChunk) : Bool := decide (b.similarity ≤ a.similarity)

/-- Body of `SemanticRetriever.retrieve_chunks` inside its `try` block
(retriever.py lines 42-94), parameterised over the injected embedder and
the search function plus metadata of the faiss manager dependency.  The
`self.threshold` resolution on line 40 happens before the `try` block and
is included here for convenience; it cannot raise. -/
def retrieveChunksTry {Q : Type} (embedText : String → Except PyErr Q)
    (searchFn : Q → ℕ → PyArr × PyArr) (metadata : List ChunkMeta)
    (threshold : ℚ) (query : String) (k : ℕ)
    (fileIds : Option (List String)) (minScore : Option ℚ) :
    Except PyErr (List RChunk) := do
  let ms := resolveMinScore minScore threshold
  let qe ← embedText query
  let maxResults := min (k * 3) 50
  let (dists, inds) := searchFn qe maxResults
  let drow ← pySub0 dists
  let irow ← pySub0 inds
  let pairs ← pyZipNumInt drow irow
  let retrieved := processCands metadata fileIds ms pairs [] []
  pure ((retrieved.mergeSort rchunkDesc).take k)

/-- `SemanticRetriever.retrieve_chunks` with its exception handler
(retriever.py lines 96-98): any exception is re-raised as a `RuntimeError`
wrapping the cause. -/
def retrieveChunks {Q : Type} (embedText : String → Except PyErr Q)
    (searchFn : Q → ℕ → PyArr × PyArr) (metadata : List ChunkMeta)
    (threshold : ℚ) (query : String) (k : ℕ)
    (fileIds : Option (List String)) (minScore : Option ℚ) :
    Except PyErr (List RChunk) :=
  match retrieveChunksTry embedText searchFn metadata threshold query k fileIds minScore with
  | .ok r => .ok r
  | .error e => .error (.runtimeError e)

/-- In-memory state of a `FAISSManager` as seen by `search`: the number of
indexed vectors (`index.ntotal`), the parallel metadata list, and the
underlying faiss flat index search routine (a C++ library call, injected;
it receives the normalised query and returns the flattened top-k scores and
indices, i.e. `distances[0].tolist(), indices[0].tolist()` before the
manager flattens them itself). -/
structure FAISSMgr (Q : Type) where
  ntotal : ℕ
  metadata : List ChunkMeta
  indexSearch : Q → ℕ → List ℚ × List ℤ

/-- `FAISSManager.search` (faiss_manager.py lines 62-92): an empty index
returns the pair of empty flat lists `[], []`; otherwise `k` is clamped to
`ntotal`, the query is normalised (modelled inside `indexSearch` together
with the library call) and the first result row of the 2-D library output
is returned as two flat Python lists. -/
def FAISSMgr.search {Q : Type} (m : FAISSMgr Q) (q : Q) (k : ℕ) : PyArr × PyArr :=
  if m.ntotal = 0 then (.listNum [], .listInt [])
  else
    let kc := min k m.ntotal
    let (ds, inds) := m.indexSearch q kc
    (.listNum ds, .listInt inds)

/-- Embedder stub that always succeeds; the query embedding itself is
irrelevant to the discrete control flow under scrutiny. -/
def okEmbed : String → Except PyErr Unit := fun _ => .ok ()

/-- A `FAISSManager` over an empty index. -/
def emptyMgr : FAISSMgr Unit :=
  { ntotal := 0, metadata := [], indexSearch := fun _ _ => ([], []) }

/-- Concrete metadata entries for a two-chunk session index. -/
def metaA : ChunkMeta :=
  { fileId := some "f1", chunkId := some "c1", content := "alpha", filename := "doc.pdf" }

/-- Second concrete metadata entry. -/
def metaB : ChunkMeta :=
  { fileId := some "f1", chunkId := some "c2", content := "beta", filename := "doc.pdf" }

/-- A `FAISSManager` holding two vectors whose inner products with any
query are `9/10` (index 0) and `1/10` (index 1), returned by the library in
descending-score order as faiss does. -/
def twoMgr : FAISSMgr Unit :=
  { ntotal := 2, metadata := [metaA, metaB],
    indexSearch := fun _ _ => ([9/10, 1/10], [0, 1]) }

/-- Metadata record created for each chunk by `add_to_faiss_index`
(main.py lines 413-422) and consumed by `retrieve_relevant_chunks`. -/
structure MainMeta where
  chunkId : String
  filename : String
  chatId : String
  content : String
  timestamp : String
  chunkIndex : ℕ
deriving DecidableEq

/-- Result dictionary `chunk_info` built by `retrieve_relevant_chunks`
(main.py lines 561-569). -/
structure MainChunk where
  content : String
  filename : String
  chunkId : String
  similarity : ℚ
  relevanceScore : ℚ
  rank : ℕ
  contentPreview : String
deriving DecidableEq

/-- Python truthiness test `if selected_files and meta['filename'] not in
selected_files` (main.py line 554): no filtering when the selection is
`None` or empty. -/
def selectedSkip (sel : Option (List String)) (fn : String) : Bool :=
  match sel with
  | none => false
  | some l => if l = [] then false else !(l.contains fn)

/-- Python list subscript `metadata[idx]` with an integer that may be
negative (negative values wrap around once from the end; a still
out-of-range index raises `IndexError`).  `retrieve_relevant_chunks` guards
only `idx >= len(metadata)` before this access. -/
def pyGetMeta (l : List MainMeta) (idx : ℤ) : Except PyErr MainMeta :=
  let j : ℤ := if idx < 0 then (l.length : ℤ) + idx else idx
  if j < 0 then .error .indexError
  else
    match l[j.toNat]? with
    | some m => .ok m
    | none => .error .indexError

/-- Candidate loop of `retrieve_relevant_chunks` (main.py lines 547-571):
`rank` is the running `enumerate` counter (advanced on skipped candidates
too), `similarity` is the raw faiss score `dist` taken directly, and
`relevance_score = dist * 100`. -/
def mainLoop (metadata : List MainMeta) (sel : Option (List String)) :
    List (ℚ × ℤ) → ℕ → List MainChunk → Except PyErr (List MainChunk)
  | [], _, acc => .ok acc.reverse
  | (dist, idx) :: rest, rank, acc =>
    if (metadata.length : ℤ) ≤ idx then mainLoop metadata sel rest (rank + 1) acc
    else
      match pyGetMeta metadata idx with
      | .error e => .error e
      | .ok m =>
        if selectedSkip sel m.filename then mainLoop metadata sel rest (rank + 1) acc
        else
          mainLoop metadata sel rest (rank + 1)
            ({ content := m.content, filename := m.filename, chunkId := m.chunkId,
               similarity := dist, relevanceScore := dist * 100, rank := rank + 1,
               contentPreview :=
                 if 100 < m.content.length then m.content.take 100 ++ "..." else m.content }
              :: acc)

/-- A loaded per-session faiss index as used by `retrieve_relevant_chunks`:
its vector count `ntotal` and the raw library search call.  The source
searches with a single-row query batch and immediately reads row `0` of
the 2-D result (`distances[0]`, `indices[0]`); `search` here returns that
row directly. -/
structure MainIdx (Q : Type) where
  ntotal : ℕ
  search : Q → ℕ → List ℚ × List ℤ

/-- Comparator of the final `chunks.sort(key=lambda x: x['similarity'],
reverse=True)` (main.py line 575): stable descending order by similarity. -/
def mainDesc (a b : MainChunk) : Bool := decide (b.similarity ≤ a.similarity)

/-- Body of `retrieve_relevant_chunks` inside its `try` block (main.py
lines 523-582).  `loaded` is the outcome of `load_faiss_index` (`none`
models the `(None, None)` no-index result, which returns an empty list).
The query is embedded first; the index is then searched for
`min(top_k * 3, ntotal)` candidates; candidates are filtered and scored by
`mainLoop`, sorted by descending similarity, and truncated to `top_k`. -/
def retrieveRelevantChunksTry {Q : Type} (embedText : String → Except PyErr Q)
    (loaded : Option (MainIdx Q × List MainMeta)) (query : String)
    (sel : Option (List String)) (topK : ℕ) : Except PyErr (List MainChunk) := do
  let qe ← embedText query
  match loaded with
  | none => pure []
  | some (idx, metadata) =>
    let searchK := min (topK * 3) idx.ntotal
    let (ds, inds) := idx.search qe searchK
    let chunks ← mainLoop metadata sel (ds.zip inds) 0 []
    pure ((chunks.mergeSort mainDesc).take topK)

/-- `retrieve_relevant_chunks` with its exception handler (main.py lines
584-586): every exception is absorbed and an empty list is returned. -/
def retrieveRelevantChunks {Q : Type} (embedText : String → Except PyErr Q)
    (loaded : Option (MainIdx Q × List MainMeta)) (query : String)
    (sel : Option (List String)) (topK : ℕ) : List MainChunk :=
  match retrieveRelevantChunksTry embedText loaded query sel topK with
  | .ok l => l
  | .error _ => []

/-- Embedder stub whose `encode` call raises. -/
def failEmbed : String → Except PyErr Unit := fun _ => .error .valueError

/-- Concrete session metadata record 0. -/
def mainMetaA : MainMeta :=
  { chunkId := "s1_chunk_0", filename := "doc.pdf", chatId := "s1",
    content := "hello", timestamp := "t0", chunkIndex := 0 }

/-- Concrete session metadata record 1. -/
def mainMetaB : MainMeta :=
  { chunkId := "s1_chunk_1", filename := "doc.pdf", chatId := "s1",
    content := "world", timestamp := "t0", chunkIndex := 1 }

/-- Concrete loaded index with two vectors whose search scores against any
query are `7/10` (index 0) and `9/10` (index 1), deliberately returned out
of order to exercise the final sort. -/
def mainIdxTwo : MainIdx Unit :=
  { ntotal := 2, search := fun _ _ => ([7/10, 9/10], [0, 1]) }

/-- Result chunk built from `mainMetaA` at score `7/10`, rank 1. -/
def chunkA : MainChunk :=
  { content := "hello", filename := "doc.pdf", chunkId := "s1_chunk_0",
    similarity := 7/10, relevanceScore := 7/10 * 100, rank := 1,
    contentPreview := "hello" }

/-- Result chunk built from `mainMetaB` at score `9/10`, rank 2. -/
def chunkB : MainChunk :=
  { content := "world", filename := "doc.pdf", chunkId := "s1_chunk_1",
    similarity := 9/10, relevanceScore := 9/10 * 100, rank := 2,
    contentPreview := "world" }

/-- Cache key produced by `QueryCache._make_key` (main.py lines 99-111):
the query is trimmed and lowercased, the selected file ids default to `[]`
and are sorted.  The source serialises the three components as JSON with
sorted keys, which is injective on them; the serialised string is modelled
by the key record itself (`invalidate_session` recovers `chat_id` by
parsing the JSON, i.e. by reading the `chatId` component). -/
structure CacheKey where
  chatId : String
  query : String
  files : List String
deriving DecidableEq

/-- Key derivation `_make_key(chat_id, query, selected_file_ids)`. -/
def makeKey (chatId query : String) (fileIds : Option (List String)) : CacheKey :=
  { chatId := chatId, query := query.trim.toLower,
    files := (fileIds.getD []).mergeSort (fun a b => decide (a ≤ b)) }

/-- State of a `QueryCache` (main.py lines 90-159): `max_size`,
`ttl_seconds`, and the `OrderedDict` contents as an insertion-ordered
association list from key to `(timestamp, value)`; the front of the list
is the least-recently-used end (`popitem(last=False)` removes it), the
back the most-recently-used end (`move_to_end` appends there). -/
structure QueryCache (V : Type) where
  maxSize : ℕ
  ttlSeconds : ℚ
  cache : List (CacheKey × ℚ × V)

/-- Eviction loop of `QueryCache.set` (main.py lines 147-149):
`while len(self._cache) > self.max_size: self._cache.popitem(last=False)`. -/
def evictOldest {α : Type} (maxSize : ℕ) : List α → List α
  | [] => []
  | x :: xs => if maxSize < (x :: xs).length then evictOldest maxSize xs else x :: xs

/-- `QueryCache.set` (main.py lines 134-149): `move_to_end` when the key is
present followed by the assignment `self._cache[key] = (time, value)` is,
under key uniqueness of the ordered dict, removal of the old entry plus an
append at the most-recently-used end; then least-recently-used entries are
evicted while the size exceeds `max_size`. -/
def QueryCache.set {V : Type} (c : QueryCache V) (chatId query : String)
    (fileIds : Option (List String)) (now : ℚ) (v : V) : QueryCache V :=
  let key := makeKey chatId query fileIds
  let newCache :=
    evictOldest c.maxSize
      ((c.cache.filter (fun kv => decide (kv.1 ≠ key))) ++ [(key, now, v)])
  { c with cache := newCache }

/-- `QueryCache.get` (main.py lines 113-132): a missing key returns `none`;
an expired entry (`now - inserted > ttl_seconds`) is removed and `none`
returned; otherwise the entry is moved to the most-recently-used end and
its value returned. -/
def QueryCache.get {V : Type} (c : QueryCache V) (chatId query : String)
    (fileIds : Option (List String)) (now : ℚ) : QueryCache V × Option V :=
  let key := makeKey chatId query fileIds
  match c.cache.find? (fun kv => decide (kv.1 = key)) with
  | none => (c, none)
  | some kv =>
    if c.ttlSeconds < now - kv.2.1 then
      ({ c with cache := c.cache.filter (fun x => decide (x.1 ≠ key)) }, none)
    else
      ({ c with cache := c.cache.filter (fun x => decide (x.1 ≠ key)) ++ [kv] },
       some kv.2.2)

/-- `QueryCache.invalidate_session` (main.py lines 155-159): every entry
whose key has the given session id is removed, all others are kept in
order. -/
def QueryCache.invalidateSession {V : Type} (c : QueryCache V) (chatId : String) :
    QueryCache V :=
  { c with cache := c.cache.filter (fun kv => decide (kv.1.chatId ≠ chatId)) }

/-- One `set` request (the raw arguments of a `QueryCache.set` call). -/
structure SetReq (V : Type) where
  chatId : String
  query : String
  fileIds : Option (List String)
  now : ℚ
  value : V

/-- Derived cache key of a `set` request. -/
def SetReq.key {V : Type} (r : SetReq V) : CacheKey := makeKey r.chatId r.query r.fileIds

/-- Cache entry a `set` request would append. -/
def SetReq.entry {V : Type} (r : SetReq V) : CacheKey × ℚ × V := (r.key, r.now, r.value)

/-- Sequential application of `set` requests. -/
def QueryCache.setAll {V : Type} (c : QueryCache V) (rs : List (SetReq V)) : QueryCache V :=
  rs.foldl (fun c r => c.set r.chatId r.query r.fileIds r.now r.value) c

/-- A freshly constructed `QueryCache` (main.py lines 93-97). -/
def emptyCache (V : Type) (maxSize : ℕ) (ttl : ℚ) : QueryCache V :=
  { maxSize := maxSize, ttlSeconds := ttl, cache := [] }

/-- Persisted files of one session as read and written by main.py
(`faiss_index_{chat_id}.bin`, `metadata_{chat_id}.pickle`) and by
`FAISSManager.save_index`/`load_index` (`index.faiss`, `metadata.pkl`):
the two final files and the two temporary files of the atomic-save path,
each `none` when absent.  Contents are abstract (`I` for a serialised
index, `M` for a serialised record list). -/
structure SessionFS (I M : Type) where
  indexFile : Option I
  metaFile : Option M
  tmpIndexFile : Option I
  tmpMetaFile : Option M
deriving DecidableEq

/-- `load_faiss_index` (main.py lines 328-354): when either final file is
missing, or reading/deserialising fails (`readFails`), the recoverable
`(None, None)` outcome is returned; otherwise the pair is loaded. -/
def loadFaissIndex {I M : Type} (fs : SessionFS I M) (readFails : Bool) :
    Option (I × M) :=
  match fs.indexFile, fs.metaFile with
  | some i, some m => if readFails then none else some (i, m)
  | _, _ => none

/-- `FAISSManager.load_index` (faiss_manager.py lines 146-173): when either
final file is missing a `FileNotFoundError` is raised (and re-raised by the
handler); otherwise the pair is loaded. -/
def mgrLoadIndex {I M : Type} (fs : SessionFS I M) : Except PyErr (I × M) :=
  match fs.indexFile, fs.metaFile with
  | some i, some m => .ok (i, m)
  | _, _ => .error .fileNotFound

/-- Atomic persistence step of `add_to_faiss_index` (main.py lines
427-449): write the new index to a temp file, write the new metadata to a
temp file, then rename both into place; if either temp write fails
(injected via the two flags), both temp artifacts are unlinked
(`missing_ok=True`) and the exception propagates to the caller of this
block.  Renames are modelled as reliable (the claims under scrutiny inject
failures into the writes, as does the spec scenario). -/
def persistAtomic {I M : Type} (fs : SessionFS I M) (newIndex : I) (newMeta : M)
    (failTmpIndex failTmpMeta : Bool) : Option PyErr × SessionFS I M :=
  if failTmpIndex then
    (some .osError, { fs with tmpIndexFile := none, tmpMetaFile := none })
  else
    let fs1 := { fs with tmpIndexFile := some newIndex }
    if failTmpMeta then
      (some .osError, { fs1 with tmpIndexFile := none, tmpMetaFile := none })
    else
      let fs2 := { fs1 with tmpMetaFile := some newMeta }
      let fs3 := { fs2 with indexFile := fs2.tmpIndexFile, tmpIndexFile := none }
      let fs4 := { fs3 with metaFile := fs3.tmpMetaFile, tmpMetaFile := none }
      (none, fs4)

/-- `FAISSManager.save_index` (faiss_manager.py lines 118-144): the index
and the metadata are written directly to their final paths, in that order,
with no temporary files; a failed write (injected via the flags) leaves
whatever has been written so far and re-raises. -/
def mgrSaveIndex {I M : Type} (fs : SessionFS I M) (newIndex : I) (newMeta : M)
    (failIndexWrite failMetaWrite : Bool) : Option PyErr × SessionFS I M :=
  if failIndexWrite then (some .osError, fs)
  else
    let fs1 := { fs with indexFile := some newIndex }
    if failMetaWrite then (some .osError, fs1)
    else (none, { fs1 with metaFile := some newMeta })

/-- System state relevant to one session: the process-wide query cache,
the session's persisted files, and its `shared_resources` in-memory
index/metadata entry. -/
structure AppState (V I M : Type) where
  queryCache : QueryCache V
  fs : SessionFS I M
  memIndex : Option I
  memMeta : Option M

/-- `add_to_faiss_index` (main.py lines 356-460) at the system level.
`build` abstracts lines 370-425 (embedding the chunks and extending the
loaded or fresh index/metadata pair with the new entries); `failEncode`
injects an embedding failure, which the outer handler absorbs into a
`False` return with no state change.  On success the new pair is persisted
atomically and the in-memory entry updated; on persistence failure the
outer handler also returns `False`.  Neither this function nor its only
caller, the `/api/upload` handler, reads, writes or invalidates the query
cache, which is therefore carried through unchanged. -/
def addToFaissIndexStep {V I M : Type} (s : AppState V I M)
    (build : Option (I × M) → I × M)
    (failEncode readFails failTmpIndex failTmpMeta : Bool) :
    Bool × AppState V I M :=
  if failEncode then (false, s)
  else
    let loaded := loadFaissIndex s.fs readFails
    let (ni, nm) := build loaded
    match persistAtomic s.fs ni nm failTmpIndex failTmpMeta with
    | (some _, fs2) => (false, { s with fs := fs2 })
    | (none, fs2) =>
      (true, { s with fs := fs2, memIndex := some ni, memMeta := some nm })

/-- Concrete system state for session `"s1"`: the query cache holds one
entry for `"s1"`, nothing is persisted yet. -/
def stateS1 : AppState ℕ ℕ ℕ :=
  { queryCache :=
      { maxSize := 100, ttlSeconds := 3600,
        cache := [(⟨"s1", "what is x?", []⟩, 0, 42)] },
    fs := ⟨none, none, none, none⟩, memIndex := none, memMeta := none }

/-- In-memory state of a `FAISSManager`, with abstract vector contents `V`
and metadata record contents `M`: the flat index holds the inserted
vectors in insertion order (so `index.ntotal` is the list length) and
`metadata` is the parallel record list. -/
structure MgrState (V M : Type) where
  index : List V
  metadata : List M
deriving DecidableEq

/-- `FAISSManager.add_embeddings` (faiss_manager.py lines 33-60): the count
check raises `ValueError` (the spec's `ShapeMismatch`) before anything is
mutated, so a rejected call leaves index and metadata unchanged; otherwise
every vector is L2-normalised (`normalize` abstracts `faiss.normalize_L2`)
and appended to the index, the metadata list is extended, and the number of
vectors added is returned. -/
def MgrState.addEmb {V M : Type} (normalize : V → V) (s : MgrState V M)
    (embs : List V) (metas : List M) : Except PyErr (MgrState V M × ℕ) :=
  if embs.length ≠ metas.length then .error .valueError
  else
    .ok ({ index := s.index ++ embs.map normalize,
           metadata := s.metadata ++ metas },
         embs.length)

/-- `FAISSManager.merge_indices` (faiss_manager.py lines 175-197): merging
an empty index is a no-op (its metadata is not appended either); otherwise
the other index's reconstructed vectors and its metadata are appended. -/
def MgrState.mergeIdx {V M : Type} (s o : MgrState V M) : MgrState V M :=
  if o.index.length = 0 then s
  else { index := s.index ++ o.index, metadata := s.metadata ++ o.metadata }

/-- `FAISSManager.clear_index` (faiss_manager.py lines 208-221): a fresh
empty index of the same dimension and an empty metadata list. -/
def MgrState.clearIdx {V M : Type} (_s : MgrState V M) : MgrState V M :=
  { index := [], metadata := [] }

/-- Manager states reachable from a fresh manager by completed
`add_embeddings`, `merge_indices` and `clear_index` operations (a rejected
`add` raises before mutating, so only `ok` results produce a new state;
`merge` takes another reachable manager). -/
inductive MgrReachable {V M : Type} (normalize : V → V) : MgrState V M → Prop where
  | init : MgrReachable normalize ⟨[], []⟩
  | add {s s2 : MgrState V M} {embs : List V} {metas : List M} {n : ℕ} :
      MgrReachable normalize s →
      s.addEmb normalize embs metas = .ok (s2, n) →
      MgrReachable normalize s2
  | merge {s o : MgrState V M} :
      MgrReachable normalize s → MgrReachable normalize o →
      MgrReachable normalize (s.mergeIdx o)
  | clear {s : MgrState V M} :
      MgrReachable normalize s → MgrReachable normalize s.clearIdx

/-- Dot product of two real rows of dimension `d` (the inner product
computed by a faiss `IndexFlatIP`). -/
def dotP {d : ℕ} (v w : Fin d → ℝ) : ℝ := ∑ i, v i * w i

/-- Sum of squared entries. -/
def sumSq {d : ℕ} (v : Fin d → ℝ) : ℝ := ∑ i, v i ^ 2

/-- L2 norm of a row. -/
noncomputable def l2norm {d : ℕ} (v : Fin d → ℝ) : ℝ := Real.sqrt (sumSq v)

/-- `faiss.normalize_L2` on one row: every coordinate is divided by the
row's L2 norm. -/
noncomputable def normalizeL2 {d : ℕ} (v : Fin d → ℝ) : Fin d → ℝ :=
  fun i => v i / l2norm v

/-- Concrete embedding vector `(3, 4)` of dimension 2. -/
def v34 : Fin 2 → ℝ := ![3, 4]

end ChatPdf

namespace ChatPdf

/-- Stable top-k selection `(l.mergeSort le).take k` returns `min k
(length l)` elements of `l`, pairwise ordered by `le`, and every element
of `l` left out scores no better (under `le`) than every element kept.
Generic helper for the retrieval ordering claims. -/
theorem mergeSort_take_topk {α : Type} (le : α → α → Bool)
    (htrans : ∀ a b c, le a b = true → le b c = true → le a c = true)
    (htotal : ∀ a b, (le a b || le b a) = true)
    (l : List α) (k : ℕ) :
    ((l.mergeSort le).take k).length = min k l.length ∧
    List.Pairwise (fun a b => le a b = true) ((l.mergeSort le).take k) ∧
    (∀ y ∈ (l.mergeSort le).take k, y ∈ l) ∧
    (∀ x ∈ l, x ∉ (l.mergeSort le).take k →
      ∀ y ∈ (l.mergeSort le).take k, le y x = true) := by
  have hperm := List.mergeSort_perm l le
  have hsorted := List.sorted_mergeSort htrans htotal l
  refine ⟨?_, ?_, ?_, ?_⟩
  · rw [List.length_take, hperm.length_eq]
  · exact List.Pairwise.sublist (List.take_sublist k _) hsorted
  · intro y hy
    exact hperm.subset (List.take_subset k _ hy)
  · intro x hxl hxout y hy
    have hxms : x ∈ l.mergeSort le := hperm.mem_iff.2 hxl
    have hsplit := List.take_append_drop k (l.mergeSort le)
    have hxdrop : x ∈ (l.mergeSort le).drop k := by
      rcases List.mem_append.1 (by rw [hsplit]; exact hxms) with h | h
      · exact absurd h hxout
      · exact h
    have hpair : List.Pairwise (fun a b => le a b = true)
        ((l.mergeSort le).take k ++ (l.mergeSort le).drop k) := by
      rw [hsplit]; exact hsorted
    exact (List.pairwise_append.1 hpair).2.2 y hy x hxdrop

/-- Claim C2 (status: code_bug).  On a session whose index contains zero
vectors, `FAISSManager.search` itself soft-fails with the empty pair
`([], [])` (the intended "empty index is not an error" behaviour), but
`SemanticRetriever.retrieve_chunks` then subscripts the already-flattened
empty list (`distances[0]`), so the call raises
`RuntimeError(... IndexError)` instead of returning an empty result list. -/
theorem c2_empty_index_raises :
    emptyMgr.search () 15 = (.listNum [], .listInt []) ∧
    retrieveChunks okEmbed emptyMgr.search emptyMgr.metadata (1/2) "any query" 5 none none
      = .error (.runtimeError .indexError) := by
  constructor
  · rfl
  · rfl

/-- Claim C1, counterexample.  On a non-empty index the retriever never
returns a descending-similarity result list at all: `FAISSManager.search`
hands it flat lists, `distances[0]` yields a bare float, and `zip` over a
float raises `TypeError`, which surfaces as a `RuntimeError`.  So at this
concrete input the claim "the retriever returns its results ordered by
descending similarity" is false. -/
theorem c1_counterexample :
    retrieveChunks okEmbed twoMgr.search twoMgr.metadata (1/2) "q" 2 none none
      = .error (.runtimeError .typeError) := by
  rfl

/-- Claim C10 (status: confirmed).  Passing `min_score = 0.0` to
`SemanticRetriever.retrieve_chunks` is indistinguishable from omitting the
parameter: `min_score or self.threshold` replaces the falsy `0.0` by the
configured threshold, so a caller cannot disable score filtering with `0.0`. -/
theorem c10_min_score_zero_is_default :
    (∀ (Q : Type) (embedText : String → Except PyErr Q)
        (searchFn : Q → ℕ → PyArr × PyArr) (metadata : List ChunkMeta)
        (threshold : ℚ) (query : String) (k : ℕ) (fileIds : Option (List String)),
      retrieveChunks embedText searchFn metadata threshold query k fileIds (some 0)
        = retrieveChunks embedText searchFn metadata threshold query k fileIds none) ∧
    (∀ threshold : ℚ, resolveMinScore (some 0) threshold = threshold) := by
  constructor
  · intro Q embedText searchFn metadata threshold query k fileIds
    simp [retrieveChunks, retrieveChunksTry, resolveMinScore]
  · intro threshold
    simp [resolveMinScore]

/-- Claim C6, counterexample.  A retrieval whose embedding step fails is
reported by `retrieve_relevant_chunks` as the empty list — exactly the
result of a successful retrieval on a session with no index — so the
failure is absorbed, not surfaced, and a caller cannot distinguish
"no matches" from "search failed". -/
theorem c6_failure_reported_as_empty :
    retrieveRelevantChunks failEmbed (some (mainIdxTwo, [mainMetaA, mainMetaB])) "q" none 5
      = ([] : List MainChunk) ∧
    retrieveRelevantChunks okEmbed (none : Option (MainIdx Unit × List MainMeta)) "q" none 5
      = ([] : List MainChunk) := by
  constructor
  · rfl
  · rfl

/-- Claim C6, amended (status: corrected).  When the embedder fails,
`SemanticRetriever.retrieve_chunks` does surface a `RuntimeError` carrying
the cause, but `retrieve_relevant_chunks` in main.py absorbs every failure
and returns an empty list indistinguishable from "no matches". -/
theorem c6_error_surfacing {Q : Type} (embedText : String → Except PyErr Q)
    (loaded : Option (MainIdx Q × List MainMeta)) (query : String)
    (sel : Option (List String)) (topK : ℕ)
    (searchFn : Q → ℕ → PyArr × PyArr) (metadata : List ChunkMeta)
    (threshold : ℚ) (k : ℕ) (fileIds : Option (List String)) (minScore : Option ℚ)
    (cause : PyErr) (hfail : embedText query = .error cause) :
    retrieveRelevantChunks embedText loaded query sel topK = [] ∧
    retrieveChunks embedText searchFn metadata threshold query k fileIds minScore
      = .error (.runtimeError cause) := by
  constructor
  · simp [retrieveRelevantChunks, retrieveRelevantChunksTry, hfail, Bind.bind, Except.bind]
  · simp [retrieveChunks, retrieveChunksTry, hfail, Bind.bind, Except.bind]

/-- Witness for `c6_error_surfacing` at a concrete failing embedder. -/
theorem c6_error_surfacing_witness :
    retrieveRelevantChunks failEmbed (some (mainIdxTwo, [mainMetaA, mainMetaB])) "q" none 5
      = [] ∧
    retrieveChunks failEmbed twoMgr.search twoMgr.metadata (1/2) "q" 2 none none
      = .error (.runtimeError .valueError) :=
  c6_error_surfacing failEmbed (some (mainIdxTwo, [mainMetaA, mainMetaB])) "q" none 5
    twoMgr.search twoMgr.metadata (1/2) 2 none none .valueError rfl

/-- Claim C1, amended (status: corrected).  For `retrieve_relevant_chunks`
in main.py the claimed property holds: the returned list is the
descending-similarity truncation of the surviving candidates, where the
similarity of a candidate is the raw faiss inner-product score stored
unchanged; the result is pairwise sorted by descending similarity, has
`min top_k (number of survivors)` elements drawn from the survivors, and
every surviving candidate left out has similarity no greater than every
returned one.  (`SemanticRetriever.retrieve_chunks`, by contrast, raises on
every call over `FAISSManager` results — see the counterexample.) -/
theorem c1_main_ordering_topk {Q : Type} (embedText : String → Except PyErr Q)
    (idx : MainIdx Q) (metadata : List MainMeta) (query : String)
    (sel : Option (List String)) (topK : ℕ) (qe : Q)
    (ds : List ℚ) (inds : List ℤ) (survivors : List MainChunk)
    (hEmbed : embedText query = .ok qe)
    (hSearch : idx.search qe (min (topK * 3) idx.ntotal) = (ds, inds))
    (hLoop : mainLoop metadata sel (ds.zip inds) 0 [] = .ok survivors) :
    retrieveRelevantChunks embedText (some (idx, metadata)) query sel topK
        = (survivors.mergeSort mainDesc).take topK ∧
    List.Sorted (fun a b => b.similarity ≤ a.similarity)
        (retrieveRelevantChunks embedText (some (idx, metadata)) query sel topK) ∧
    (retrieveRelevantChunks embedText (some (idx, metadata)) query sel topK).length
        = min topK survivors.length ∧
    (∀ y ∈ retrieveRelevantChunks embedText (some (idx, metadata)) query sel topK,
        y ∈ survivors) ∧
    (∀ x ∈ survivors,
        x ∉ retrieveRelevantChunks embedText (some (idx, metadata)) query sel topK →
        ∀ y ∈ retrieveRelevantChunks embedText (some (idx, metadata)) query sel topK,
          x.similarity ≤ y.similarity) := by
  have htrans : ∀ a b c : MainChunk,
      mainDesc a b = true → mainDesc b c = true → mainDesc a c = true := by
    intro a b c hab hbc
    simp only [mainDesc, decide_eq_true_eq] at *
    exact le_trans hbc hab
  have htotal : ∀ a b : MainChunk, (mainDesc a b || mainDesc b a) = true := by
    intro a b
    simp only [mainDesc, Bool.or_eq_true, decide_eq_true_eq]
    exact le_total b.similarity a.similarity
  have hout : retrieveRelevantChunks embedText (some (idx, metadata)) query sel topK
      = (survivors.mergeSort mainDesc).take topK := by
    simp [retrieveRelevantChunks, retrieveRelevantChunksTry, hEmbed, hSearch, hLoop,
      Bind.bind, Except.bind, Functor.map, Except.map, Pure.pure, Except.pure]
  have hspec := mergeSort_take_topk mainDesc htrans htotal survivors topK
  refine ⟨hout, ?_, ?_, ?_, ?_⟩
  · rw [hout]
    exact hspec.2.1.imp (by intro a b h; simpa [mainDesc] using h)
  · rw [hout]; exact hspec.1
  · rw [hout]; exact hspec.2.2.1
  · rw [hout]
    intro x hx hnx y hy
    have := hspec.2.2.2 x hx hnx y hy
    simpa [mainDesc] using this

/-- Witness for `c1_main_ordering_topk` on a concrete two-chunk session
with out-of-order faiss scores. -/
theorem c1_main_ordering_topk_witness :
    retrieveRelevantChunks okEmbed (some (mainIdxTwo, [mainMetaA, mainMetaB])) "q" none 1
        = ([chunkA, chunkB].mergeSort mainDesc).take 1 ∧
    List.Sorted (fun a b => b.similarity ≤ a.similarity)
        (retrieveRelevantChunks okEmbed (some (mainIdxTwo, [mainMetaA, mainMetaB])) "q" none 1) ∧
    (retrieveRelevantChunks okEmbed (some (mainIdxTwo, [mainMetaA, mainMetaB])) "q" none 1).length
        = min 1 [chunkA, chunkB].length ∧
    (∀ y ∈ retrieveRelevantChunks okEmbed (some (mainIdxTwo, [mainMetaA, mainMetaB])) "q" none 1,
        y ∈ [chunkA, chunkB]) ∧
    (∀ x ∈ [chunkA, chunkB],
        x ∉ retrieveRelevantChunks okEmbed (some (mainIdxTwo, [mainMetaA, mainMetaB])) "q" none 1 →
        ∀ y ∈ retrieveRelevantChunks okEmbed (some (mainIdxTwo, [mainMetaA, mainMetaB])) "q" none 1,
          x.similarity ≤ y.similarity) :=
  c1_main_ordering_topk okEmbed mainIdxTwo [mainMetaA, mainMetaB] "q" none 1 ()
    [7/10, 9/10] [0, 1] [chunkA, chunkB] rfl rfl rfl

/-- The eviction loop removes exactly the entries beyond the bound from
the least-recently-used end (the list front). -/
theorem evictOldest_eq_drop {α : Type} (m : ℕ) (l : List α) :
    evictOldest m l = l.drop (l.length - m) := by
  induction l with
  | nil => simp [evictOldest]
  | cons x xs ih =>
    simp only [evictOldest, List.length_cons]
    by_cases h : m < xs.length + 1
    · rw [if_pos h, ih]
      have hidx : xs.length + 1 - m = (xs.length - m) + 1 := by omega
      rw [hidx, List.drop_succ_cons]
    · rw [if_neg h]
      have hidx : xs.length + 1 - m = 0 := by omega
      rw [hidx, List.drop_zero]

/-- `set` and hence `setAll` never change the configured bound. -/
theorem setAll_maxSize {V : Type} (rs : List (SetReq V)) (c : QueryCache V) :
    (c.setAll rs).maxSize = c.maxSize := by
  induction rs generalizing c with
  | nil => rfl
  | cons r rs ih => exact ih (c.set r.chatId r.query r.fileIds r.now r.value)

/-- Unfolding lemma for `QueryCache.set`. -/
theorem set_cache_eq {V : Type} (c : QueryCache V) (chatId query : String)
    (fileIds : Option (List String)) (now : ℚ) (v : V) :
    (c.set chatId query fileIds now v).cache
      = evictOldest c.maxSize
          ((c.cache.filter (fun kv => decide (kv.1 ≠ makeKey chatId query fileIds)))
            ++ [(makeKey chatId query fileIds, now, v)]) := rfl

/-- Appending one element commutes with dropping an in-range prefix. -/
theorem drop_append_one {α : Type} (L : List α) (x : α) (d : ℕ) (hd : d ≤ L.length) :
    L.drop d ++ [x] = (L ++ [x]).drop d := by
  rw [List.drop_append_eq_append_drop]
  have h0 : d - L.length = 0 := by omega
  rw [h0, List.drop_zero]

/-- Folding `set` requests with pairwise-distinct derived keys over an
empty cache retains exactly the most recent `max_size` entries, in
insertion order (the dropped prefix is the least-recently-used side). -/
theorem setAll_fresh_formula {V : Type} (m : ℕ) (ttl : ℚ) (rs : List (SetReq V)) :
    (rs.map SetReq.key).Nodup →
    ((emptyCache V m ttl).setAll rs).cache
      = (rs.map SetReq.entry).drop (rs.length - m) := by
  induction rs using List.reverseRecOn with
  | nil =>
    intro _
    simp [QueryCache.setAll, emptyCache]
  | append_singleton rs r ih =>
    intro hnd
    rw [List.map_append, List.map_singleton] at hnd
    have h1 : (rs.map SetReq.key).Nodup := hnd.of_append_left
    have h2 : r.key ∉ rs.map SetReq.key := by
      intro hmem
      exact (List.nodup_append.mp hnd).2.2 hmem (List.mem_singleton.mpr rfl)
    have hcache := ih h1
    set cprev := (emptyCache V m ttl).setAll rs with hcprev
    have hstep : (emptyCache V m ttl).setAll (rs ++ [r])
        = cprev.set r.chatId r.query r.fileIds r.now r.value := by
      simp [QueryCache.setAll, List.foldl_append, hcprev]
    have hmax : cprev.maxSize = m := setAll_maxSize rs (emptyCache V m ttl)
    have hfresh : ∀ kv ∈ cprev.cache, kv.1 ≠ makeKey r.chatId r.query r.fileIds := by
      intro kv hkv heq
      apply h2
      have hk1 : kv.1 ∈ cprev.cache.map Prod.fst := List.mem_map_of_mem Prod.fst hkv
      rw [hcache] at hk1
      have hk2 : kv.1 ∈ (rs.map SetReq.entry).map Prod.fst :=
        List.map_subset Prod.fst (List.drop_subset _ _) hk1
      rw [List.map_map] at hk2
      have hk3 : kv.1 ∈ rs.map SetReq.key := hk2
      rw [heq] at hk3
      exact hk3
    have hfilter :
        cprev.cache.filter (fun kv => decide (kv.1 ≠ makeKey r.chatId r.query r.fileIds))
          = cprev.cache :=
      List.filter_eq_self.mpr (fun kv hkv => decide_eq_true (hfresh kv hkv))
    rw [hstep, set_cache_eq, hmax, hfilter, hcache]
    have hre : ((makeKey r.chatId r.query r.fileIds, r.now, r.value) : CacheKey × ℚ × V)
        = SetReq.entry r := rfl
    rw [hre]
    have hdle : rs.length - m ≤ (rs.map SetReq.entry).length := by
      rw [List.length_map]; omega
    rw [drop_append_one _ _ _ hdle, evictOldest_eq_drop, List.drop_drop]
    rw [← List.map_singleton SetReq.entry, ← List.map_append]
    congr 1
    simp only [List.length_drop, List.length_append, List.length_map,
      List.length_singleton]
    omega

/-- Claim C9 (status: confirmed).  After every completed `set` the query
cache holds at most `max_size` entries, and eviction removes entries from
the least-recently-used end; in particular, inserting `max_size + 1`
requests with pairwise-distinct keys into an empty cache leaves exactly
`max_size` entries — the last `max_size` insertions in order — with the
first-inserted (least-recently-accessed) key the one evicted. -/
theorem c9_lru_bound {V : Type} (c : QueryCache V) (chatId query : String)
    (fileIds : Option (List String)) (now : ℚ) (v : V)
    (m : ℕ) (ttl : ℚ) (rs : List (SetReq V))
    (hnd : (rs.map SetReq.key).Nodup) (hlen : rs.length = m + 1) :
    ((c.set chatId query fileIds now v).cache).length ≤ c.maxSize ∧
    ((emptyCache V m ttl).setAll rs).cache = (rs.map SetReq.entry).drop 1 ∧
    ((emptyCache V m ttl).setAll rs).cache.length = m ∧
    ((emptyCache V m ttl).setAll rs).cache.map Prod.fst = (rs.map SetReq.key).drop 1 := by
  have hform := setAll_fresh_formula m ttl rs hnd
  rw [hlen] at hform
  have hone : m + 1 - m = 1 := by omega
  rw [hone] at hform
  refine ⟨?_, hform, ?_, ?_⟩
  · rw [set_cache_eq, evictOldest_eq_drop, List.length_drop]
    omega
  · rw [hform, List.length_drop, List.length_map, hlen]
    omega
  · rw [hform, List.map_drop, List.map_map]
    rfl

/-- Witness for `c9_lru_bound`: a bound-1 cache receiving two distinct
keys keeps only the second. -/
theorem c9_lru_bound_witness :
    (((emptyCache ℕ 1 3600).set "s1" "q" none 0 7).cache).length ≤ (emptyCache ℕ 1 3600).maxSize ∧
    ((emptyCache ℕ 1 3600).setAll
        [⟨"a", "q", none, 0, 1⟩, ⟨"b", "q", none, 2, 3⟩]).cache
      = (([⟨"a", "q", none, 0, 1⟩, ⟨"b", "q", none, 2, 3⟩] : List (SetReq ℕ)).map SetReq.entry).drop 1 ∧
    ((emptyCache ℕ 1 3600).setAll
        [⟨"a", "q", none, 0, 1⟩, ⟨"b", "q", none, 2, 3⟩]).cache.length = 1 ∧
    ((emptyCache ℕ 1 3600).setAll
        [⟨"a", "q", none, 0, 1⟩, ⟨"b", "q", none, 2, 3⟩]).cache.map Prod.fst
      = (([⟨"a", "q", none, 0, 1⟩, ⟨"b", "q", none, 2, 3⟩] : List (SetReq ℕ)).map SetReq.key).drop 1 :=
  c9_lru_bound (emptyCache ℕ 1 3600) "s1" "q" none 0 7 1 3600
    [⟨"a", "q", none, 0, 1⟩, ⟨"b", "q", none, 2, 3⟩]
    (by simp [SetReq.key, makeKey]) rfl

/-- Claim C5, counterexample.  A successful upload to session `"s1"`
(a completed `add_to_faiss_index` mutation of its index) leaves the query
cache entry for `"s1"` in place: no invalidation happens, contradicting
"every query-cache entry whose key's session component matches that
session is removed before the mutation completes". -/
theorem c5_upload_keeps_stale_entry :
    (addToFaissIndexStep stateS1 (fun _ => (1, 1)) false false false false).1 = true ∧
    (addToFaissIndexStep stateS1 (fun _ => (1, 1)) false false false false).2.queryCache
      = stateS1.queryCache ∧
    (⟨⟨"s1", "what is x?", []⟩, (0 : ℚ), 42⟩ : CacheKey × ℚ × ℕ)
      ∈ (addToFaissIndexStep stateS1 (fun _ => (1, 1)) false false false false).2.queryCache.cache := by
  refine ⟨rfl, rfl, ?_⟩
  exact List.mem_singleton.mpr rfl

/-- Claim C5, amended (status: corrected).  `QueryCache.invalidate_session`
does remove exactly the entries whose key's session component matches and
keeps all others; but no upload path ever invokes it — `add_to_faiss_index`
carries the query cache through every outcome unchanged — so entries of
the mutated session survive the mutation. -/
theorem c5_invalidate_unused {V I M : Type} (s : AppState V I M)
    (build : Option (I × M) → I × M) (failEncode readFails failTmpIndex failTmpMeta : Bool)
    (c : QueryCache V) (chatId : String) (kv : CacheKey × ℚ × V)
    (hmem : kv ∈ c.cache) (hother : kv.1.chatId ≠ chatId) :
    (addToFaissIndexStep s build failEncode readFails failTmpIndex failTmpMeta).2.queryCache
      = s.queryCache ∧
    (∀ kw ∈ (c.invalidateSession chatId).cache, kw.1.chatId ≠ chatId) ∧
    kv ∈ (c.invalidateSession chatId).cache := by
  refine ⟨?_, ?_, ?_⟩
  · unfold addToFaissIndexStep
    by_cases hf : failEncode
    · simp [hf]
    · simp only [hf, if_false, Bool.false_eq_true]
      rcases hp : persistAtomic s.fs (build (loadFaissIndex s.fs readFails)).1
          (build (loadFaissIndex s.fs readFails)).2 failTmpIndex failTmpMeta with ⟨e, fs2⟩
      cases e <;> simp [hp]
  · intro kw hkw
    have := List.of_mem_filter hkw
    simpa using this
  · exact List.mem_filter.mpr ⟨hmem, by simpa using hother⟩

/-- Witness for `c5_invalidate_unused` at the concrete `"s1"` state with an
entry for a different session `"s2"`. -/
theorem c5_invalidate_unused_witness :
    (addToFaissIndexStep stateS1 (fun _ => (2, 2)) false false false false).2.queryCache
      = stateS1.queryCache ∧
    (∀ kw ∈ (stateS1.queryCache.invalidateSession "s2").cache, kw.1.chatId ≠ "s2") ∧
    (⟨⟨"s1", "what is x?", []⟩, (0 : ℚ), 42⟩ : CacheKey × ℚ × ℕ)
      ∈ (stateS1.queryCache.invalidateSession "s2").cache :=
  c5_invalidate_unused stateS1 (fun _ => (2, 2)) false false false false
    stateS1.queryCache "s2" ⟨⟨"s1", "what is x?", []⟩, (0 : ℚ), 42⟩
    (List.mem_singleton.mpr rfl) (by decide)

/-- Claim C3, counterexample.  `FAISSManager.save_index` writes both files
directly in place with no temporary files: starting from a matched
persisted pair (index of 2 vectors, 2 records), a failure of the metadata
write after the index write commits the new index (3 vectors) beside the
stale metadata (2 records) — a persisted index file without its matching
metadata file, and the prior pair is not left unchanged.  This refutes the
claim for the cited `FAISSManager.save_index`. -/
theorem c3_save_index_not_atomic :
    mgrSaveIndex (⟨some 2, some 2, none, none⟩ : SessionFS ℕ ℕ) 3 3 false true
      = (some .osError, ⟨some 3, some 2, none, none⟩) ∧ (3 : ℕ) ≠ 2 := by
  exact ⟨rfl, by decide⟩

/-- Claim C3, amended (status: corrected).  The atomic discipline holds for
`add_to_faiss_index` in main.py: both artifacts are first written to
temporary files; if either temp write fails, both temp files are removed,
the error propagates out of the persistence block, and the previously
persisted pair is untouched; only when both writes succeed are both files
renamed into place.  `FAISSManager.save_index`, however, writes in place
and can commit an index without its matching metadata (see the
counterexample). -/
theorem c3_add_persist_atomic {I M : Type} (fs : SessionFS I M) (ni : I) (nm : M) :
    (∀ b : Bool, persistAtomic fs ni nm true b
        = (some .osError,
           { indexFile := fs.indexFile, metaFile := fs.metaFile,
             tmpIndexFile := none, tmpMetaFile := none })) ∧
    persistAtomic fs ni nm false true
        = (some .osError,
           { indexFile := fs.indexFile, metaFile := fs.metaFile,
             tmpIndexFile := none, tmpMetaFile := none }) ∧
    persistAtomic fs ni nm false false
        = (none,
           { indexFile := some ni, metaFile := some nm,
             tmpIndexFile := none, tmpMetaFile := none }) := by
  refine ⟨fun b => rfl, rfl, rfl⟩

/-- Claim C4, counterexample.  A partial pair (index file present, metadata
file absent) makes `load_faiss_index` return the very same recoverable
`(None, None)` outcome as the both-missing case — not a distinguishable
`CorruptIndex` error; and `FAISSManager.load_index` raises
`FileNotFoundError` even when both files are missing — not a recoverable
"no index" state. -/
theorem c4_partial_pair_not_distinguished :
    loadFaissIndex (⟨some 3, none, none, none⟩ : SessionFS ℕ ℕ) false = none ∧
    loadFaissIndex (⟨none, none, none, none⟩ : SessionFS ℕ ℕ) false = none ∧
    mgrLoadIndex (⟨none, none, none, none⟩ : SessionFS ℕ ℕ) = .error .fileNotFound := by
  exact ⟨rfl, rfl, rfl⟩

/-- Claim C4, amended (status: corrected).  Both loaders treat every
missing-file situation uniformly: whenever at least one of the pair is
absent, `load_faiss_index` returns the recoverable no-index outcome and
`FAISSManager.load_index` raises `FileNotFoundError`; neither distinguishes
the partial pair as a `CorruptIndex` condition. -/
theorem c4_load_uniform {I M : Type} (fs : SessionFS I M) (readFails : Bool)
    (h : fs.indexFile = none ∨ fs.metaFile = none) :
    loadFaissIndex fs readFails = none ∧ mgrLoadIndex fs = .error .fileNotFound := by
  rcases fs with ⟨fi, mf, ti, tm⟩
  rcases h with h | h
  · cases h
    constructor <;> rfl
  · cases h
    cases fi <;> exact ⟨rfl, rfl⟩

/-- Witness for `c4_load_uniform` at a partial pair. -/
theorem c4_load_uniform_witness :
    loadFaissIndex (⟨some 1, none, none, none⟩ : SessionFS ℕ ℕ) false = none ∧
    mgrLoadIndex (⟨some 1, none, none, none⟩ : SessionFS ℕ ℕ) = .error .fileNotFound :=
  c4_load_uniform ⟨some 1, none, none, none⟩ false (Or.inr rfl)

/-- Every reachable manager state keeps the parallel-records invariant. -/
theorem mgrReachable_invariant {V M : Type} (normalize : V → V)
    (s : MgrState V M) (h : MgrReachable normalize s) :
    s.metadata.length = s.index.length := by
  induction h with
  | init => rfl
  | add hr hok ih =>
    rename_i s1 s2 embs metas n
    unfold MgrState.addEmb at hok
    split at hok
    · exact absurd hok (by simp)
    · rename_i hcond
      have hlen : embs.length = metas.length := by
        by_contra hne
        exact hcond hne
      obtain ⟨hstate, -⟩ := Prod.mk.inj (Except.ok.inj hok)
      subst hstate
      simp only [List.length_append, List.length_map]
      omega
  | merge hr ho ihs iho =>
    rename_i s1 o
    unfold MgrState.mergeIdx
    split
    · exact ihs
    · simp only [List.length_append]
      omega
  | clear hr ih => rfl

/-- Claim C8 (status: confirmed).  After every sequence of completed
`add_embeddings`, `merge_indices` and `clear_index` operations the number
of metadata records equals the number of indexed vectors; and an `add`
whose vector count differs from its record count is rejected with the
`ValueError` shape-mismatch error, producing no new state (the check runs
before any mutation). -/
theorem c8_parallel_records {V M : Type} (normalize : V → V) (s : MgrState V M)
    (hreach : MgrReachable normalize s) (t : MgrState V M)
    (embs : List V) (metas : List M) (hne : embs.length ≠ metas.length) :
    s.metadata.length = s.index.length ∧
    t.addEmb normalize embs metas = .error .valueError := by
  refine ⟨mgrReachable_invariant normalize s hreach, ?_⟩
  unfold MgrState.addEmb
  rw [if_pos hne]

/-- Witness for `c8_parallel_records`: the state after one successful add
of one vector with one record, and a mismatched add of two vectors with
one record. -/
theorem c8_parallel_records_witness :
    (⟨[5], [7]⟩ : MgrState ℕ ℕ).metadata.length = (⟨[5], [7]⟩ : MgrState ℕ ℕ).index.length ∧
    (⟨[], []⟩ : MgrState ℕ ℕ).addEmb id [1, 2] [3] = .error .valueError :=
  c8_parallel_records id ⟨[5], [7]⟩
    (@MgrReachable.add ℕ ℕ id ⟨[], []⟩ ⟨[5], [7]⟩ [5] [7] 1 MgrReachable.init rfl)
    ⟨[], []⟩ [1, 2] [3] (by decide)

/-- Sum of squares is nonnegative. -/
theorem sumSq_nonneg {d : ℕ} (v : Fin d → ℝ) : 0 ≤ sumSq v :=
  Finset.sum_nonneg fun i _ => sq_nonneg (v i)

/-- Normalising a row of nonzero norm yields a unit sum of squares. -/
theorem sumSq_normalizeL2 {d : ℕ} (v : Fin d → ℝ) (h : sumSq v ≠ 0) :
    sumSq (normalizeL2 v) = 1 := by
  have hsq : l2norm v ^ 2 = sumSq v := Real.sq_sqrt (sumSq_nonneg v)
  unfold sumSq normalizeL2
  simp only [div_pow]
  rw [← Finset.sum_div, hsq]
  exact div_self h

/-- Cauchy–Schwarz: the inner product of two rows with unit sum of squares
lies in the interval `[-1, 1]`. -/
theorem dotP_mem_Icc {d : ℕ} (v w : Fin d → ℝ)
    (hv : sumSq v = 1) (hw : sumSq w = 1) :
    dotP v w ∈ Set.Icc (-1 : ℝ) 1 := by
  have h := Finset.sum_mul_sq_le_sq_mul_sq Finset.univ v w
  have hv2 : (∑ i, v i ^ 2) = 1 := hv
  have hw2 : (∑ i, w i ^ 2) = 1 := hw
  have h2 : dotP v w ^ 2 ≤ 1 := by
    unfold dotP
    calc (∑ i, v i * w i) ^ 2 ≤ (∑ i, v i ^ 2) * (∑ i, w i ^ 2) := h
    _ = 1 := by rw [hv2, hw2, one_mul]
  constructor
  · nlinarith [h2]
  · nlinarith [h2]

/-- Claim C7 (status: confirmed).  For every batch accepted by
`add_embeddings` whose vectors are nonzero (a zero row has no unit
normalisation; floating-point faiss produces non-finite values there), and
assuming the previously stored vectors already satisfy the invariant,
every vector stored after the insertion has L2 norm 1, and the
inner-product search score of any nonzero query — faiss searches with the
L2-normalised query against the stored rows — lies in `[-1, 1]`. -/
theorem c7_normalization_invariant {d : ℕ} {M : Type}
    (s : MgrState (Fin d → ℝ) M) (embs : List (Fin d → ℝ)) (metas : List M)
    (s2 : MgrState (Fin d → ℝ) M) (n : ℕ)
    (hprev : ∀ w ∈ s.index, sumSq w = 1)
    (hnz : ∀ v ∈ embs, sumSq v ≠ 0)
    (hok : s.addEmb normalizeL2 embs metas = .ok (s2, n)) :
    (∀ w ∈ s2.index, l2norm w = 1) ∧
    (∀ q : Fin d → ℝ, sumSq q ≠ 0 →
      ∀ w ∈ s2.index, dotP (normalizeL2 q) w ∈ Set.Icc (-1 : ℝ) 1) := by
  have hs2 : ∀ w ∈ s2.index, sumSq w = 1 := by
    unfold MgrState.addEmb at hok
    split at hok
    · exact absurd hok (by simp)
    · obtain ⟨hstate, -⟩ := Prod.mk.inj (Except.ok.inj hok)
      subst hstate
      intro w hw
      rcases List.mem_append.1 hw with hw | hw
      · exact hprev w hw
      · rcases List.mem_map.1 hw with ⟨v, hv, hvw⟩
        rw [← hvw]
        exact sumSq_normalizeL2 v (hnz v hv)
  constructor
  · intro w hw
    unfold l2norm
    rw [hs2 w hw]
    exact Real.sqrt_one
  · intro q hq w hw
    exact dotP_mem_Icc (normalizeL2 q) w (sumSq_normalizeL2 q hq) (hs2 w hw)

/-- Witness for `c7_normalization_invariant`: adding the vector `(3, 4)`
to an empty index. -/
theorem c7_normalization_invariant_witness :
    (∀ w ∈ (⟨[normalizeL2 v34], [()]⟩ : MgrState (Fin 2 → ℝ) Unit).index, l2norm w = 1) ∧
    (∀ q : Fin 2 → ℝ, sumSq q ≠ 0 →
      ∀ w ∈ (⟨[normalizeL2 v34], [()]⟩ : MgrState (Fin 2 → ℝ) Unit).index,
        dotP (normalizeL2 q) w ∈ Set.Icc (-1 : ℝ) 1) :=
  c7_normalization_invariant ⟨[], []⟩ [v34] [()] ⟨[normalizeL2 v34], [()]⟩ 1
    (fun w hw => absurd hw (List.not_mem_nil w))
    (by
      intro v hv
      rw [List.mem_singleton] at hv
      subst hv
      unfold sumSq v34
      rw [Fin.sum_univ_two]
      norm_num)
    rfl

end ChatPdf
